import Mathlib

/-!
Verification of the elastic-streams log generator core
(src/main.py, src/log_generators.py) against its design specification.

The Python code is shallowly embedded: pure helpers become Lean functions,
the random draws become explicit numeric parameters (the drawn value),
file-system state becomes an explicit state record, and Python exceptions
become Option results (none = the call raised).
-/

namespace LogGen

/-! ## Time-of-day model (datetime.time, compared lexicographically) -/

/-- A Python datetime.time value: hour, minute, second, microsecond.
Python compares such values lexicographically field by field. -/
structure TimeOfDay where
  hour : Nat
  minute : Nat
  second : Nat
  micro : Nat
deriving DecidableEq, Repr

/-- Lexicographic order on time-of-day values, exactly as Python compares
two datetime.time objects. -/
def todLe (a b : TimeOfDay) : Bool :=
  if a.hour ≠ b.hour then decide (a.hour < b.hour)
  else if a.minute ≠ b.minute then decide (a.minute < b.minute)
  else if a.second ≠ b.second then decide (a.second < b.second)
  else decide (a.micro ≤ b.micro)

/-- Embeds LogGeneratorOrchestrator._is_peak_hours: the test
start_time <= now <= end_time on datetime.time values. -/
def is_peak_hours (start_time end_time now : TimeOfDay) : Bool :=
  todLe start_time now && todLe now end_time

/-- Embeds LogGeneratorOrchestrator._get_adjusted_rate: base rate taken
from configuration, multiplied by the peak multiplier exactly when
_is_peak_hours holds. -/
def get_adjusted_rate (base_rate multiplier : ℚ)
    (start_time end_time now : TimeOfDay) : ℚ :=
  if is_peak_hours start_time end_time now then base_rate * multiplier
  else base_rate

/-! ## Host selection (_get_host_for_service) -/

/-- A configured host: name, ip address, list of service identifiers. -/
structure Host where
  name : String
  ip : String
  services : List String
deriving DecidableEq, Repr

/-- Embeds LogGeneratorOrchestrator._get_host_for_service.  The random
draw of random.choice is embedded as the index parameter k taken modulo
the number of eligible hosts.  Indexing an empty Python list raises
IndexError; that failure is the none result. -/
def get_host_for_service (log_type : String) (hosts : List Host)
    (k : Nat) : Option Host :=
  let eligible := hosts.filter (fun h => decide (log_type ∈ h.services))
  if eligible.isEmpty then hosts.head?
  else eligible[k % eligible.length]?

/-! ## Weighted choice (_weighted_choice, duplicated per generator class) -/

/-- The loop of _weighted_choice: walk the entries in order keeping the
running total upto; return the first outcome with upto + weight >= r,
else the fallback (the first key of the dict, none when the dict is
empty, i.e. IndexError). -/
def weightedGo {α : Type} (fallback : Option α) (r : ℚ) :
    List (α × ℚ) → ℚ → Option α
  | [], _ => fallback
  | (c, w) :: rest, upto =>
    if r ≤ upto + w then some c else weightedGo fallback r rest (upto + w)

/-- Embeds _weighted_choice (NginxLogGenerator and JavaAppLogGenerator
share the identical body).  choices is the dict in insertion order, r is
the value drawn by random.uniform(0, total). -/
def weighted_choice {α : Type} (choices : List (α × ℚ)) (r : ℚ) : Option α :=
  weightedGo ((choices.map Prod.fst).head?) r choices 0

/-- total = sum(choices.values()). -/
def totalWeight {α : Type} (choices : List (α × ℚ)) : ℚ :=
  (choices.map Prod.snd).sum

/-- Spec-side description of weighted selection, written from the spec
words: pair every outcome with its running accumulated weight, return the
first outcome whose accumulated weight is >= the draw, falling back to
the first-defined outcome. -/
def runningTotals {α : Type} : List (α × ℚ) → ℚ → List (α × ℚ)
  | [], _ => []
  | (c, w) :: rest, acc => (c, acc + w) :: runningTotals rest (acc + w)

/-- Spec-side weighted selection used to state the refinement claim. -/
def weighted_choice_spec {α : Type} (choices : List (α × ℚ)) (r : ℚ) :
    Option α :=
  match (runningTotals choices 0).find? (fun p => decide (r ≤ p.2)) with
  | some p => some p.1
  | none => (choices.map Prod.fst).head?

/-! ## Scenario gate (_is_attack_request) -/

/-- Embeds NginxLogGenerator._is_attack_request: false when the scenario
is disabled, otherwise true iff the uniform draw r from random.random()
is strictly below the configured intensity. -/
def is_attack_request (enabled : Bool) (intensity r : ℚ) : Bool :=
  if !enabled then false
  else decide (r < intensity)

/-! ## Rotating sink (_write_log_entry, _rotate_log_file)

One StreamFile record per stream type mirrors the per-type entry of
self.log_files plus the file-system content behind its handle.  A file's
content is the list of chunks handed to handle.write, split into the
durably flushed part and the part still sitting in the handle's buffer.
openHandles counts the open file handles belonging to this stream. -/

/-- Per-stream sink state: the already rotated-out files (closing a
Python handle flushes it, so each is a single list of chunks), the
current file split into flushed and buffered chunks, the size counter of
the dict entry, and the number of open handles of this stream. -/
structure StreamFile where
  closedFiles : List (List String)
  durable : List String
  buffer : List String
  size : Nat
  openHandles : Nat
deriving DecidableEq, Repr

/-- The state self.log_files[log_type] starts in after
_create_output_directories: a freshly opened empty file, size 0. -/
def initStream : StreamFile :=
  { closedFiles := [], durable := [], buffer := [], size := 0,
    openHandles := 1 }

/-- Total content of a file, bytes written to its handle in order. -/
def fileChunks (fs : StreamFile) : List String :=
  fs.durable ++ fs.buffer

/-- Byte size of a file content (length of the concatenation). -/
def chunksLen (f : List String) : Nat :=
  (f.map String.length).sum

/-- Embeds _rotate_log_file, minus the file naming handled separately:
close the current handle (flushing it) and move its content to the
rotated-out list, then open a fresh handle on an empty file and replace
the dict entry with size 0. -/
def rotateStream (fs : StreamFile) : StreamFile :=
  let closedSt : StreamFile :=
    { fs with
      openHandles := fs.openHandles - 1,
      closedFiles := fs.closedFiles ++ [fs.durable ++ fs.buffer],
      durable := [], buffer := [] }
  { closedSt with openHandles := closedSt.openHandles + 1, size := 0 }

/-- Embeds the registered-stream body of _write_log_entry:
handle.write(log_line + newline), handle.flush(), size += len + 1, then
rotate when size > max_size_bytes. -/
def writeStream (max_size_bytes : Nat) (fs : StreamFile)
    (log_line : String) : StreamFile :=
  let fs1 : StreamFile := { fs with buffer := fs.buffer ++ [log_line ++ "\n"] }
  let fs2 : StreamFile :=
    { fs1 with durable := fs1.durable ++ fs1.buffer, buffer := [] }
  let fs3 : StreamFile := { fs2 with size := fs2.size + log_line.length + 1 }
  if fs3.size > max_size_bytes then rotateStream fs3 else fs3

/-- Everything ever handed to any handle.write of this stream, in
emission order: rotated-out files first, then the current file. -/
def allChunks (fs : StreamFile) : List String :=
  fs.closedFiles.flatten ++ fs.durable ++ fs.buffer

/-- The sink invariant of one stream: nothing buffered between
operations, the size counter equal to the bytes of the current file and
never above the threshold, exactly one open handle, and every rotated
file rotated because it crossed the threshold. -/
def SinkInv (max_size_bytes : Nat) (fs : StreamFile) : Prop :=
  fs.buffer = [] ∧ fs.size = chunksLen fs.durable ∧
    fs.size ≤ max_size_bytes ∧ fs.openHandles = 1 ∧
    ∀ f ∈ fs.closedFiles, chunksLen f > max_size_bytes

/-- Lookup in the self.log_files dict, modelled as an association list
keyed by stream type. -/
def lookupStream : List (String × StreamFile) → String → Option StreamFile
  | [], _ => none
  | (k, v) :: rest, lt => if k = lt then some v else lookupStream rest lt

/-- Replacement of the dict entry for an existing key. -/
def updateStream (files : List (String × StreamFile)) (lt : String)
    (fs : StreamFile) : List (String × StreamFile) :=
  files.map (fun p => if p.1 = lt then (p.1, fs) else p)

/-- Embeds _write_log_entry on the whole self.log_files table: an
unregistered stream type returns immediately, a registered one gets the
write-flush-count-rotate sequence, with the threshold taken from
configuration in megabytes and converted to bytes. -/
def write_log_entry (max_size_mb : Nat) (files : List (String × StreamFile))
    (log_type : String) (log_line : String) : List (String × StreamFile) :=
  match lookupStream files log_type with
  | none => files
  | some fs =>
    updateStream files log_type
      (writeStream (max_size_mb * 1024 * 1024) fs log_line)

/-! ## Emission loop (_generate_logs_for_type)

One loop iteration reads self.running, and when it is set runs the tick
body (rate, host pick, generate_log, write) inside try/except: the body
either yields the log line that gets written or raises, in which case the
error is logged and the loop continues.  A tick is embedded as the
sampled running flag together with the body's outcome. -/

/-- Outcome of one tick body: a produced log line, or an exception
raised anywhere in production or writing. -/
inductive Tick where
  | ok (line : String)
  | fail (msg : String)
deriving DecidableEq, Repr

/-- Embeds the while-loop of _generate_logs_for_type for one stream
type: each iteration samples the running flag (loop exits when clear),
then the try block writes the produced line while the except block logs
the error and falls through to the next iteration.  Returns the final
file table and the number of errors logged. -/
def generate_logs_for_type (max_size_mb : Nat)
    (files : List (String × StreamFile)) (log_type : String) :
    List (Bool × Tick) → List (String × StreamFile) × Nat
  | [] => (files, 0)
  | (running, t) :: rest =>
    if running then
      match t with
      | .ok line =>
        generate_logs_for_type max_size_mb
          (write_log_entry max_size_mb files log_type line) log_type rest
      | .fail _ =>
        let out := generate_logs_for_type max_size_mb files log_type rest
        (out.1, out.2 + 1)
    else (files, 0)

/-- The log line a tick writes, when its body did not raise. -/
def tickLine : Tick → Option String
  | .ok line => some line
  | .fail _ => none

/-- Whether a tick body raised. -/
def tickFailed : Tick → Bool
  | .ok _ => false
  | .fail _ => true

/-! ## Rotation file naming (_rotate_log_file) -/

/-- A wall-clock instant as datetime.now() reports it. -/
structure Timestamp where
  year : Nat
  month : Nat
  day : Nat
  hour : Nat
  minute : Nat
  second : Nat
  micro : Nat
deriving DecidableEq, Repr

/-- Two zero-padded decimal digits, the output of a %02d-style strftime
field for values below 100. -/
def pad2 (n : Nat) : List Char :=
  [Nat.digitChar (n / 10 % 10), Nat.digitChar (n % 10)]

/-- Four zero-padded decimal digits, the output of the %Y strftime field
for years below 10000. -/
def pad4 (n : Nat) : List Char :=
  [Nat.digitChar (n / 1000 % 10), Nat.digitChar (n / 100 % 10),
   Nat.digitChar (n / 10 % 10), Nat.digitChar (n % 10)]

/-- Embeds datetime.now().strftime of the format used by the rotation
code: year month day, an underscore, hour minute second.  Second
granularity: the microsecond field is dropped. -/
def strftime_compact (t : Timestamp) : String :=
  String.mk (pad4 t.year ++ pad2 t.month ++ pad2 t.day ++ ['_'] ++
    pad2 t.hour ++ pad2 t.minute ++ pad2 t.second)

/-- Embeds the filename built by _rotate_log_file (and identically by
_create_output_directories): the stream type, an underscore, the
second-granularity timestamp, and the .log extension. -/
def rotation_filename (log_type : String) (t : Timestamp) : String :=
  log_type ++ "_" ++ strftime_compact t ++ ".log"

/-- The second-granularity truncation of an instant. -/
def truncToSecond (t : Timestamp) : Timestamp :=
  { t with micro := 0 }

/-- Field bounds a real wall-clock timestamp satisfies, wide enough for
the padded rendering to be exact. -/
def validTs (t : Timestamp) : Prop :=
  t.year < 10000 ∧ t.month < 100 ∧ t.day < 100 ∧ t.hour < 100 ∧
    t.minute < 100 ∧ t.second < 100

/-! ## Helper lemmas -/

/-- The lexicographic time-of-day order is transitive. -/
theorem todLe_trans {a b c : TimeOfDay} (h1 : todLe a b = true)
    (h2 : todLe b c = true) : todLe a c = true := by
  simp only [todLe] at h1 h2 ⊢
  split_ifs at h1 h2 ⊢ <;> simp_all <;> omega

/-- A wraparound window start > end makes _is_peak_hours reject every
time-of-day, because the inclusive chain start <= now <= end would force
start <= end. -/
theorem is_peak_hours_of_wrap {s e : TimeOfDay} (now : TimeOfDay)
    (h : todLe s e = false) : is_peak_hours s e now = false := by
  unfold is_peak_hours
  cases h1 : todLe s now <;> cases h2 : todLe now e <;> simp
  exact absurd (todLe_trans h1 h2) (by simp [h])

/-- The weighted-choice loop never loses a some fallback. -/
theorem weightedGo_isSome {α : Type} (fb : Option α) (r : ℚ)
    (l : List (α × ℚ)) (acc : ℚ) (hf : fb.isSome) :
    (weightedGo fb r l acc).isSome := by
  induction l generalizing acc with
  | nil => exact hf
  | cons p rest ih =>
    obtain ⟨c, w⟩ := p
    unfold weightedGo
    by_cases hr : r ≤ acc + w <;> simp [hr]
    exact ih (acc + w)

/-- Whatever the weighted-choice loop returns is either the fallback or
one of the listed outcomes. -/
theorem weightedGo_mem {α : Type} (fb : Option α) (r : ℚ)
    (l : List (α × ℚ)) (acc : ℚ) (c : α)
    (h : weightedGo fb r l acc = some c) :
    fb = some c ∨ c ∈ l.map Prod.fst := by
  induction l generalizing acc with
  | nil => exact Or.inl h
  | cons p rest ih =>
    obtain ⟨c0, w⟩ := p
    unfold weightedGo at h
    by_cases hr : r ≤ acc + w
    · simp [hr] at h
      simp [h]
    · simp [hr] at h
      rcases ih (acc + w) h with h' | h'
      · exact Or.inl h'
      · simp [h']

/-- The loop of _weighted_choice agrees with the spec-side first-match
over running totals, for any starting accumulator. -/
theorem weightedGo_spec {α : Type} (fb : Option α) (r : ℚ)
    (l : List (α × ℚ)) (acc : ℚ) :
    weightedGo fb r l acc =
      (match (runningTotals l acc).find? (fun p => decide (r ≤ p.2)) with
       | some p => some p.1
       | none => fb) := by
  induction l generalizing acc with
  | nil => rfl
  | cons p rest ih =>
    obtain ⟨c, w⟩ := p
    by_cases hr : r ≤ acc + w
    · simp [weightedGo, runningTotals, hr, List.find?_cons_of_pos]
    · simp [weightedGo, runningTotals, hr, List.find?_cons_of_neg, ih]

/-- The two branches of one write step, spelled out: either the size
counter crosses the threshold and the freshly written file rotates out,
or the current file simply grows. -/
theorem writeStream_def (maxB : Nat) (fs : StreamFile) (l : String) :
    writeStream maxB fs l =
      if fs.size + l.length + 1 > maxB then
        { closedFiles := fs.closedFiles ++ [fs.durable ++ fs.buffer ++ [l ++ "\n"]],
          durable := [], buffer := [], size := 0,
          openHandles := fs.openHandles - 1 + 1 }
      else
        { fs with durable := fs.durable ++ fs.buffer ++ [l ++ "\n"],
                  buffer := [], size := fs.size + l.length + 1 } := by
  simp only [writeStream, rotateStream]
  split <;> simp

/-- One write step preserves the sink invariant and appends exactly its
chunk to the stream content. -/
theorem writeStream_inv {maxB : Nat} {fs : StreamFile} (l : String)
    (h : SinkInv maxB fs) :
    SinkInv maxB (writeStream maxB fs l) ∧
      allChunks (writeStream maxB fs l) = allChunks fs ++ [l ++ "\n"] := by
  obtain ⟨hbuf, hsz, hle, hoh, hcl⟩ := h
  have hlen : chunksLen (fs.durable ++ fs.buffer ++ [l ++ "\n"]) =
      fs.size + l.length + 1 := by
    simp [chunksLen, hsz, hbuf, String.length_append]
    rfl
  rw [writeStream_def]
  by_cases hrot : fs.size + l.length + 1 > maxB
  · rw [if_pos hrot]
    refine ⟨⟨rfl, by simp [chunksLen], Nat.zero_le _, by simp [hoh], ?_⟩, ?_⟩
    · intro f hf
      simp only [List.mem_append, List.mem_singleton] at hf
      rcases hf with hf | hf
      · exact hcl f hf
      · rw [hf, hlen]
        exact hrot
    · simp [allChunks, hbuf]
  · rw [if_neg hrot]
    refine ⟨⟨rfl, hlen.symm, not_lt.mp hrot, hoh, ?_⟩, ?_⟩
    · intro f hf
      exact hcl f hf
    · simp [allChunks, hbuf]

/-- Folding writes preserves the sink invariant and appends exactly the
written chunks in order. -/
theorem writeStream_fold_inv {maxB : Nat} {fs : StreamFile}
    (h : SinkInv maxB fs) (lines : List String) :
    SinkInv maxB (lines.foldl (writeStream maxB) fs) ∧
      allChunks (lines.foldl (writeStream maxB) fs) =
        allChunks fs ++ lines.map (fun l => l ++ "\n") := by
  induction lines generalizing fs with
  | nil => simpa using h
  | cons l rest ih =>
    have step := writeStream_inv l h
    have tail := ih step.1
    refine ⟨tail.1, ?_⟩
    simp only [List.foldl_cons, tail.2, step.2, List.map_cons,
      List.append_assoc, List.singleton_append]

/-- Replacing one stream's dict entry leaves every other stream's entry
untouched. -/
theorem lookupStream_updateStream_ne (files : List (String × StreamFile))
    (lt lt2 : String) (fs : StreamFile) (h : lt2 ≠ lt) :
    lookupStream (updateStream files lt fs) lt2 = lookupStream files lt2 := by
  induction files with
  | nil => rfl
  | cons p rest ih =>
    obtain ⟨k, v⟩ := p
    simp only [updateStream, List.map_cons]
    by_cases hk : k = lt
    · rw [if_pos hk]
      simp only [lookupStream]
      have hk2 : ¬k = lt2 := fun he => h (by rw [← he, hk])
      rw [if_neg hk2, if_neg hk2]
      simpa [updateStream] using ih
    · rw [if_neg hk]
      simp only [lookupStream]
      by_cases hk2 : k = lt2
      · rw [if_pos hk2, if_pos hk2]
      · rw [if_neg hk2, if_neg hk2]
        simpa [updateStream] using ih

/-- A write for one stream type never touches another stream's entry. -/
theorem write_log_entry_other (mb : Nat)
    (files : List (String × StreamFile)) (lt line lt2 : String)
    (h : lt2 ≠ lt) :
    lookupStream (write_log_entry mb files lt line) lt2 =
      lookupStream files lt2 := by
  unfold write_log_entry
  cases hl : lookupStream files lt with
  | none => rfl
  | some fs => exact lookupStream_updateStream_ne files lt lt2 _ h

/-- Decimal digit characters are distinct, stated over Fin 10 so the
kernel can check it by enumeration. -/
theorem digitChar_inj_fin : ∀ a b : Fin 10,
    Nat.digitChar a.val = Nat.digitChar b.val → a = b := by decide

/-- Decimal digit characters are distinct below 10. -/
theorem digitChar_injOn {a b : Nat} (ha : a < 10) (hb : b < 10)
    (h : Nat.digitChar a = Nat.digitChar b) : a = b :=
  congrArg Fin.val (digitChar_inj_fin ⟨a, ha⟩ ⟨b, hb⟩ h)

/-- The character list behind the strftime output. -/
theorem strftime_compact_data (t : Timestamp) :
    (strftime_compact t).data =
      pad4 t.year ++ pad2 t.month ++ pad2 t.day ++ ['_'] ++
        pad2 t.hour ++ pad2 t.minute ++ pad2 t.second := rfl

/-- The strftime rendering determines every second-granularity field, as
long as each field is within its padded width. -/
theorem strftime_compact_inj {t1 t2 : Timestamp} (h1 : validTs t1)
    (h2 : validTs t2)
    (h : (strftime_compact t1).data = (strftime_compact t2).data) :
    truncToSecond t1 = truncToSecond t2 := by
  obtain ⟨y1, mo1, d1, hr1, mi1, s1, u1⟩ := t1
  obtain ⟨y2, mo2, d2, hr2, mi2, s2, u2⟩ := t2
  obtain ⟨hy1, hmo1, hd1, hh1, hmi1, hs1⟩ := h1
  obtain ⟨hy2, hmo2, hd2, hh2, hmi2, hs2⟩ := h2
  dsimp only at hy1 hmo1 hd1 hh1 hmi1 hs1 hy2 hmo2 hd2 hh2 hmi2 hs2
  rw [strftime_compact_data, strftime_compact_data] at h
  simp only [pad4, pad2, List.cons_append, List.nil_append,
    List.cons.injEq, and_true, true_and] at h
  obtain ⟨e1, e2, e3, e4, e5, e6, e7, e8, e9, e10, e11, e12, e13, e14⟩ := h
  have d10 : (0 : Nat) < 10 := by norm_num
  have q1 := digitChar_injOn (Nat.mod_lt _ d10) (Nat.mod_lt _ d10) e1
  have q2 := digitChar_injOn (Nat.mod_lt _ d10) (Nat.mod_lt _ d10) e2
  have q3 := digitChar_injOn (Nat.mod_lt _ d10) (Nat.mod_lt _ d10) e3
  have q4 := digitChar_injOn (Nat.mod_lt _ d10) (Nat.mod_lt _ d10) e4
  have q5 := digitChar_injOn (Nat.mod_lt _ d10) (Nat.mod_lt _ d10) e5
  have q6 := digitChar_injOn (Nat.mod_lt _ d10) (Nat.mod_lt _ d10) e6
  have q7 := digitChar_injOn (Nat.mod_lt _ d10) (Nat.mod_lt _ d10) e7
  have q8 := digitChar_injOn (Nat.mod_lt _ d10) (Nat.mod_lt _ d10) e8
  have q9 := digitChar_injOn (Nat.mod_lt _ d10) (Nat.mod_lt _ d10) e9
  have q10 := digitChar_injOn (Nat.mod_lt _ d10) (Nat.mod_lt _ d10) e10
  have q11 := digitChar_injOn (Nat.mod_lt _ d10) (Nat.mod_lt _ d10) e11
  have q12 := digitChar_injOn (Nat.mod_lt _ d10) (Nat.mod_lt _ d10) e12
  have q13 := digitChar_injOn (Nat.mod_lt _ d10) (Nat.mod_lt _ d10) e13
  have q14 := digitChar_injOn (Nat.mod_lt _ d10) (Nat.mod_lt _ d10) e14
  simp only [truncToSecond, Timestamp.mk.injEq, and_true]
  refine ⟨by omega, by omega, by omega, by omega, by omega, by omega⟩

/-- The strftime rendering ignores the microsecond field. -/
theorem strftime_compact_trunc (t : Timestamp) :
    strftime_compact (truncToSecond t) = strftime_compact t := by
  cases t
  rfl

/-! ## Claim C4 -/

/-- C4 counterexample: two rotations of the nginx stream within the
same wall-clock second (they differ only in microseconds, so they are
two distinct rotation instants) produce the identical destination file
name; _rotate_log_file appends no disambiguator. -/
theorem C4_counterexample :
    rotation_filename "nginx" ⟨2024, 5, 1, 12, 0, 0, 0⟩ =
        rotation_filename "nginx" ⟨2024, 5, 1, 12, 0, 0, 500000⟩ ∧
      (⟨2024, 5, 1, 12, 0, 0, 0⟩ : Timestamp) ≠
        ⟨2024, 5, 1, 12, 0, 0, 500000⟩ := by
  constructor
  · rfl
  · decide

/-- C4 amended: the destination file name embeds exactly the rotation
instant truncated to seconds, so two rotations of the same stream get
distinct names if and only if they fall in distinct seconds; within one
second the names collide (and the code appends to the same file), no
disambiguator being added. -/
theorem C4_amended_naming (log_type : String) (t1 t2 : Timestamp)
    (h1 : validTs t1) (h2 : validTs t2) :
    rotation_filename log_type t1 = rotation_filename log_type t2 ↔
      truncToSecond t1 = truncToSecond t2 := by
  constructor
  · intro h
    apply strftime_compact_inj h1 h2
    have hd := congrArg String.data h
    simp only [rotation_filename, String.data_append, List.append_assoc] at hd
    exact List.append_cancel_right
      (List.append_cancel_left (List.append_cancel_left hd))
  · intro h
    have hs : strftime_compact t1 = strftime_compact t2 := by
      rw [← strftime_compact_trunc t1, ← strftime_compact_trunc t2, h]
    rw [rotation_filename, rotation_filename, hs]

/-- C4 amended, witness: 12:00:00 and 12:00:01 of the same day get
distinct names, at second granularity. -/
theorem C4_amended_naming_witness :
    validTs ⟨2024, 5, 1, 12, 0, 0, 0⟩ ∧ validTs ⟨2024, 5, 1, 12, 0, 1, 0⟩ ∧
      (rotation_filename "nginx" ⟨2024, 5, 1, 12, 0, 0, 0⟩ =
          rotation_filename "nginx" ⟨2024, 5, 1, 12, 0, 1, 0⟩ ↔
        truncToSecond ⟨2024, 5, 1, 12, 0, 0, 0⟩ =
          truncToSecond ⟨2024, 5, 1, 12, 0, 1, 0⟩) :=
  ⟨by constructor <;> norm_num,
    by constructor <;> norm_num,
    C4_amended_naming "nginx" ⟨2024, 5, 1, 12, 0, 0, 0⟩
      ⟨2024, 5, 1, 12, 0, 1, 0⟩ (by constructor <;> norm_num)
      (by constructor <;> norm_num)⟩

/-! ## Claim C1 -/

/-- C1 counterexample: with the midnight-spanning window 22:00 to 02:00,
base rate 10 and multiplier 2, the adjusted rate at 23:30 is the plain
base rate 10, not 10 * 2: _is_peak_hours tests start <= now <= end
directly and never treats start > end as a wraparound window. -/
theorem C1_counterexample :
    get_adjusted_rate 10 2 ⟨22, 0, 0, 0⟩ ⟨2, 0, 0, 0⟩ ⟨23, 30, 0, 0⟩ = 10 ∧
      (10 : ℚ) ≠ 10 * 2 := by
  constructor
  · simp [get_adjusted_rate, is_peak_hours, todLe]
  · norm_num

/-- C1 amended: whenever the configured window has start strictly after
end (lexicographically), the window matches no time-of-day at all, so
the adjusted rate equals the base rate everywhere; in particular with
window 22:00 to 02:00 the multiplier is applied neither at 23:30 nor at
01:00 nor at 12:00. -/
theorem C1_amended_no_wraparound (base mult : ℚ) (s e now : TimeOfDay)
    (h : todLe s e = false) :
    get_adjusted_rate base mult s e now = base := by
  unfold get_adjusted_rate
  simp [is_peak_hours_of_wrap now h]

/-- C1 amended, witness: the 22:00 to 02:00 window at 01:00. -/
theorem C1_amended_witness :
    todLe ⟨22, 0, 0, 0⟩ ⟨2, 0, 0, 0⟩ = false ∧
      get_adjusted_rate 10 2 ⟨22, 0, 0, 0⟩ ⟨2, 0, 0, 0⟩ ⟨1, 0, 0, 0⟩ = 10 :=
  ⟨by decide,
    C1_amended_no_wraparound 10 2 ⟨22, 0, 0, 0⟩ ⟨2, 0, 0, 0⟩ ⟨1, 0, 0, 0⟩
      (by decide)⟩

/-! ## Claim C3 -/

/-- C3 counterexample: the one-entry distribution with weight 0 is an
all-zero distribution; total is 0 so random.uniform(0, 0) draws r = 0,
and _weighted_choice returns the outcome 200 instead of failing: the
first loop check upto + weight >= r is 0 >= 0. -/
theorem C3_counterexample :
    weighted_choice [((200 : Nat), (0 : ℚ))] 0 = some 200 := by
  simp [weighted_choice, weightedGo]

/-- C3 amended: _weighted_choice fails (the fallback indexes the first
key of an empty dict, raising IndexError) exactly when the distribution
is empty; a non-empty distribution always yields an outcome, even when
every weight is zero or negative. -/
theorem C3_amended_fail_iff_empty {α : Type} (choices : List (α × ℚ))
    (r : ℚ) :
    weighted_choice choices r = none ↔ choices = [] := by
  cases choices with
  | nil => simp [weighted_choice, weightedGo]
  | cons p rest =>
    obtain ⟨c, w⟩ := p
    simp only [weighted_choice]
    constructor
    · intro h
      have hs := weightedGo_isSome (some c) r ((c, w) :: rest) 0 (by simp)
      simp only [List.map_cons, List.head?_cons] at h
      rw [h] at hs
      simp at hs
    · intro h
      simp at h

/-! ## Claim C2 -/

/-- C2: on an empty host list _get_host_for_service fails (hosts[0]
raises IndexError); on a non-empty list it returns some host, that host
advertises the requested stream type whenever any configured host does,
and when no host advertises it the first configured host is returned. -/
theorem C2_host_selection (log_type : String) (hosts : List Host)
    (k : Nat) :
    (hosts = [] → get_host_for_service log_type hosts k = none) ∧
      (hosts ≠ [] →
        ∃ h, get_host_for_service log_type hosts k = some h ∧
          ((∃ h0 ∈ hosts, log_type ∈ h0.services) → log_type ∈ h.services) ∧
          ((∀ h0 ∈ hosts, log_type ∉ h0.services) → hosts.head? = some h)) := by
  constructor
  · rintro rfl; rfl
  · intro hne
    by_cases hel : hosts.filter (fun h => decide (log_type ∈ h.services)) = []
    · cases hosts with
      | nil => exact absurd rfl hne
      | cons a as =>
        refine ⟨a, ?_, ?_, fun _ => rfl⟩
        · simp [get_host_for_service, hel]
        · rintro ⟨h0, hmem, hserv⟩
          have hall := List.filter_eq_nil_iff.mp hel
          exact absurd hserv (by simpa using hall h0 hmem)
    · have hlen :
          0 < (hosts.filter (fun h => decide (log_type ∈ h.services))).length :=
        List.length_pos.mpr hel
      have hklt :
          k % (hosts.filter (fun h => decide (log_type ∈ h.services))).length <
            (hosts.filter (fun h => decide (log_type ∈ h.services))).length :=
        Nat.mod_lt _ hlen
      have hget :
          (hosts.filter (fun h => decide (log_type ∈ h.services)))[k %
              (hosts.filter (fun h => decide (log_type ∈ h.services))).length]? =
            some ((hosts.filter (fun h => decide (log_type ∈ h.services))).get
              ⟨_, hklt⟩) := List.getElem?_eq_getElem hklt
      have hmemel :
          (hosts.filter (fun h => decide (log_type ∈ h.services))).get
              ⟨_, hklt⟩ ∈
            hosts.filter (fun h => decide (log_type ∈ h.services)) :=
        List.get_mem _ _ hklt
      have hmemf := List.mem_filter.mp hmemel
      refine ⟨(hosts.filter (fun h => decide (log_type ∈ h.services))).get
        ⟨_, hklt⟩, ?_, ?_, ?_⟩
      · simp only [get_host_for_service]
        rw [if_neg (by simpa [List.isEmpty_iff] using hel)]
        exact hget
      · intro _
        simpa using hmemf.2
      · intro hall
        exact absurd (by simpa using hmemf.2) (hall _ hmemf.1)

/-- C2 witness: one configured host advertising the stream type. -/
theorem C2_host_selection_witness :
    ([⟨"web1", "10.0.0.1", ["nginx"]⟩] : List Host) ≠ [] ∧
      ∃ h, get_host_for_service "nginx"
          [⟨"web1", "10.0.0.1", ["nginx"]⟩] 0 = some h ∧
        ((∃ h0 ∈ ([⟨"web1", "10.0.0.1", ["nginx"]⟩] : List Host),
            "nginx" ∈ h0.services) → "nginx" ∈ h.services) ∧
        ((∀ h0 ∈ ([⟨"web1", "10.0.0.1", ["nginx"]⟩] : List Host),
            "nginx" ∉ h0.services) →
          ([⟨"web1", "10.0.0.1", ["nginx"]⟩] : List Host).head? = some h) :=
  ⟨by simp,
    (C2_host_selection "nginx" [⟨"web1", "10.0.0.1", ["nginx"]⟩] 0).2
      (by simp)⟩

/-! ## Claim C7 -/

/-- C7: for a non-empty distribution and a draw in [0, totalWeight),
_weighted_choice computes exactly the spec-side walk (first outcome whose
running accumulated weight is at least the draw, else the first-defined
outcome), and always returns a defined outcome of the distribution. -/
theorem C7_weighted_selection {α : Type} (choices : List (α × ℚ)) (r : ℚ)
    (_h0 : 0 ≤ r) (_h1 : r < totalWeight choices) (hne : choices ≠ []) :
    weighted_choice choices r = weighted_choice_spec choices r ∧
      ∃ c, weighted_choice choices r = some c ∧ c ∈ choices.map Prod.fst := by
  constructor
  · simp [weighted_choice, weighted_choice_spec, weightedGo_spec]
  · cases choices with
    | nil => exact absurd rfl hne
    | cons p rest =>
      obtain ⟨c0, w⟩ := p
      have hs := weightedGo_isSome (some c0) r ((c0, w) :: rest) 0 (by simp)
      obtain ⟨c, hc⟩ := Option.isSome_iff_exists.mp hs
      refine ⟨c, by simpa [weighted_choice] using hc, ?_⟩
      rcases weightedGo_mem (some c0) r ((c0, w) :: rest) 0 c hc with h' | h'
      · simp at h'
        simp [h']
      · exact h'

/-- C7 witness: the nginx status-code style distribution 200 at 7/10 and
404 at 3/10, with the draw 1/2. -/
theorem C7_weighted_selection_witness :
    (0 : ℚ) ≤ 1 / 2 ∧
      (1 / 2 : ℚ) < totalWeight [((200 : Nat), (7 / 10 : ℚ)), (404, 3 / 10)] ∧
      ([((200 : Nat), (7 / 10 : ℚ)), (404, 3 / 10)] ≠ []) ∧
      (weighted_choice [((200 : Nat), (7 / 10 : ℚ)), (404, 3 / 10)] (1 / 2) =
          weighted_choice_spec
            [((200 : Nat), (7 / 10 : ℚ)), (404, 3 / 10)] (1 / 2) ∧
        ∃ c, weighted_choice
            [((200 : Nat), (7 / 10 : ℚ)), (404, 3 / 10)] (1 / 2) = some c ∧
          c ∈ [((200 : Nat), (7 / 10 : ℚ)), (404, 3 / 10)].map Prod.fst) :=
  ⟨by norm_num, by norm_num [totalWeight], by simp,
    C7_weighted_selection _ _ (by norm_num) (by norm_num [totalWeight])
      (by simp)⟩

/-! ## Claim C5 -/

/-- C5: starting from the fresh sink of _create_output_directories, any
sequence of _write_log_entry calls for one stream partitions the written
lines, in emission order, across the rotated-out files and the current
file with nothing lost, duplicated or split; every rotated file crossed
the size threshold (so each crossing rotated exactly once) while the
current file has not crossed it; and between operations exactly one
handle is open and nothing is left unflushed. -/
theorem C5_rotation_partition (maxB : Nat) (lines : List String) :
    ((lines.foldl (writeStream maxB) initStream).closedFiles ++
          [fileChunks (lines.foldl (writeStream maxB) initStream)]).flatten =
        lines.map (fun l => l ++ "\n") ∧
      (∀ f ∈ (lines.foldl (writeStream maxB) initStream).closedFiles,
        chunksLen f > maxB) ∧
      (lines.foldl (writeStream maxB) initStream).size ≤ maxB ∧
      (lines.foldl (writeStream maxB) initStream).size =
        chunksLen (fileChunks (lines.foldl (writeStream maxB) initStream)) ∧
      (lines.foldl (writeStream maxB) initStream).openHandles = 1 ∧
      (lines.foldl (writeStream maxB) initStream).buffer = [] := by
  have hinit : SinkInv maxB initStream := by
    refine ⟨rfl, rfl, Nat.zero_le _, rfl, ?_⟩
    intro f hf
    simp [initStream] at hf
  obtain ⟨⟨hbuf, hsz, hle, hoh, hcl⟩, hcontent⟩ :=
    writeStream_fold_inv hinit lines
  refine ⟨?_, hcl, hle, ?_, hoh, hbuf⟩
  · have hall : allChunks (lines.foldl (writeStream maxB) initStream) =
        lines.map (fun l => l ++ "\n") := by
      simpa [allChunks, initStream] using hcontent
    simpa [allChunks, fileChunks, List.flatten_append] using hall
  · simp [fileChunks, hbuf, chunksLen, hsz]

/-- C5 witness: two writes against a 5-byte threshold, the first of
which rotates. -/
theorem C5_rotation_partition_witness :
    (((["hello", "ab"] : List String).foldl (writeStream 5)
            initStream).closedFiles ++
          [fileChunks ((["hello", "ab"] : List String).foldl (writeStream 5)
            initStream)]).flatten =
        (["hello", "ab"] : List String).map (fun l => l ++ "\n") ∧
      (∀ f ∈ ((["hello", "ab"] : List String).foldl (writeStream 5)
          initStream).closedFiles, chunksLen f > 5) ∧
      ((["hello", "ab"] : List String).foldl (writeStream 5)
          initStream).size ≤ 5 ∧
      ((["hello", "ab"] : List String).foldl (writeStream 5)
          initStream).size =
        chunksLen (fileChunks ((["hello", "ab"] : List String).foldl
          (writeStream 5) initStream)) ∧
      ((["hello", "ab"] : List String).foldl (writeStream 5)
          initStream).openHandles = 1 ∧
      ((["hello", "ab"] : List String).foldl (writeStream 5)
          initStream).buffer = [] :=
  C5_rotation_partition 5 ["hello", "ab"]

/-! ## Claim C6 -/

/-- C6: a write to a registered stream goes through writeStream on that
stream's entry; the written chunk is the line plus exactly one newline
and its length is the counter increment; the handle is flushed before
returning; when the incremented counter stays at or below the threshold
(megabytes times 1024 times 1024 bytes) the current file just grows by
the chunk, and when it exceeds the threshold the file rotates out and
the counter resets to 0. -/
theorem C6_write_step (max_size_mb : Nat)
    (files : List (String × StreamFile)) (log_type : String)
    (fs : StreamFile) (line : String)
    (h : lookupStream files log_type = some fs) :
    write_log_entry max_size_mb files log_type line =
        updateStream files log_type
          (writeStream (max_size_mb * 1024 * 1024) fs line) ∧
      (line ++ "\n").length = line.length + 1 ∧
      (writeStream (max_size_mb * 1024 * 1024) fs line).buffer = [] ∧
      (fs.size + line.length + 1 ≤ max_size_mb * 1024 * 1024 →
        writeStream (max_size_mb * 1024 * 1024) fs line =
          { fs with durable := fs.durable ++ fs.buffer ++ [line ++ "\n"],
                    buffer := [],
                    size := fs.size + line.length + 1 }) ∧
      (fs.size + line.length + 1 > max_size_mb * 1024 * 1024 →
        writeStream (max_size_mb * 1024 * 1024) fs line =
          { closedFiles :=
              fs.closedFiles ++ [fs.durable ++ fs.buffer ++ [line ++ "\n"]],
            durable := [], buffer := [], size := 0,
            openHandles := fs.openHandles - 1 + 1 }) := by
  refine ⟨?_, ?_, ?_, ?_, ?_⟩
  · unfold write_log_entry
    rw [h]
  · simp [String.length_append]
    rfl
  · rw [writeStream_def]
    split <;> rfl
  · intro hle
    rw [writeStream_def, if_neg (not_lt.mpr hle)]
  · intro hgt
    rw [writeStream_def, if_pos hgt]

/-- C6 witness: one registered nginx stream, a small write, no
rotation. -/
theorem C6_write_step_witness :
    lookupStream [("nginx", initStream)] "nginx" = some initStream ∧
      (initStream.size + "hello".length + 1 ≤ 1 * 1024 * 1024 ∧
        write_log_entry 1 [("nginx", initStream)] "nginx" "hello" =
          updateStream [("nginx", initStream)] "nginx"
            (writeStream (1 * 1024 * 1024) initStream "hello")) :=
  ⟨by decide,
    by decide,
    ((C6_write_step 1 [("nginx", initStream)] "nginx" initStream "hello"
      (by decide)).1)⟩

/-! ## Claim C10 -/

/-- C10: a write for a stream type with no entry in self.log_files
returns immediately, leaving the whole file table, every other stream's
counter and handle included, unchanged, and raising nothing. -/
theorem C10_unregistered_write (max_size_mb : Nat)
    (files : List (String × StreamFile)) (log_type line : String)
    (h : lookupStream files log_type = none) :
    write_log_entry max_size_mb files log_type line = files := by
  unfold write_log_entry
  rw [h]

/-- C10 witness: a java_app write against a table holding only the
nginx stream. -/
theorem C10_unregistered_write_witness :
    lookupStream [("nginx", initStream)] "java_app" = none ∧
      write_log_entry 100 [("nginx", initStream)] "java_app" "x" =
        [("nginx", initStream)] :=
  ⟨by decide,
    C10_unregistered_write 100 [("nginx", initStream)] "java_app" "x"
      (by decide)⟩

/-! ## Claim C9 -/

/-- C9: while every sampled running flag stays set, a tick whose body
raised is logged and skipped and the loop keeps going: the errors logged
count every failed tick, the file table ends up exactly as if the
successful ticks alone had been written in order (so no failed event
terminates the loop or loses later events), and no other stream type's
sink entry is ever touched. -/
theorem C9_loop_resilience (max_size_mb : Nat)
    (files : List (String × StreamFile)) (log_type : String)
    (ticks : List (Bool × Tick)) (hrun : ∀ p ∈ ticks, p.1 = true) :
    (generate_logs_for_type max_size_mb files log_type ticks).2 =
        (ticks.filter (fun p => tickFailed p.2)).length ∧
      (generate_logs_for_type max_size_mb files log_type ticks).1 =
        (ticks.filterMap (fun p => tickLine p.2)).foldl
          (fun fl l => write_log_entry max_size_mb fl log_type l) files ∧
      ∀ lt2, lt2 ≠ log_type →
        lookupStream
            (generate_logs_for_type max_size_mb files log_type ticks).1 lt2 =
          lookupStream files lt2 := by
  induction ticks generalizing files with
  | nil => exact ⟨rfl, rfl, fun lt2 _ => rfl⟩
  | cons p rest ih =>
    obtain ⟨b, t⟩ := p
    have hb : b = true := hrun (b, t) (List.mem_cons_self _ _)
    subst hb
    have hrest : ∀ q ∈ rest, q.1 = true := fun q hq =>
      hrun q (List.mem_cons_of_mem _ hq)
    cases t with
    | ok line =>
      have ihw := ih (write_log_entry max_size_mb files log_type line) hrest
      refine ⟨?_, ?_, ?_⟩
      · simpa [generate_logs_for_type, tickFailed] using ihw.1
      · simpa [generate_logs_for_type, tickLine] using ihw.2.1
      · intro lt2 hne
        have hstep :=
          write_log_entry_other max_size_mb files log_type line lt2 hne
        have htail := ihw.2.2 lt2 hne
        simp only [generate_logs_for_type, if_pos]
        rw [htail, hstep]
    | fail m =>
      have ihw := ih files hrest
      refine ⟨?_, ?_, ?_⟩
      · simpa [generate_logs_for_type, tickFailed] using ihw.1
      · simpa [generate_logs_for_type, tickLine] using ihw.2.1
      · intro lt2 hne
        have htail := ihw.2.2 lt2 hne
        simpa [generate_logs_for_type] using htail

/-- C9 witness: a failing tick between two successful ones; the loop
logs one error, writes both good lines, and leaves an unrelated stream
entry alone. -/
theorem C9_loop_resilience_witness :
    (∀ p ∈ ([(true, Tick.ok "x"), (true, Tick.fail "boom"),
        (true, Tick.ok "y")] : List (Bool × Tick)), p.1 = true) ∧
      (generate_logs_for_type 1 [("nginx", initStream)] "nginx"
            [(true, Tick.ok "x"), (true, Tick.fail "boom"),
              (true, Tick.ok "y")]).2 =
          (([(true, Tick.ok "x"), (true, Tick.fail "boom"),
              (true, Tick.ok "y")] : List (Bool × Tick)).filter
            (fun p => tickFailed p.2)).length :=
  ⟨by decide,
    (C9_loop_resilience 1 [("nginx", initStream)] "nginx"
        [(true, Tick.ok "x"), (true, Tick.fail "boom"), (true, Tick.ok "y")]
        (by decide)).1⟩

/-! ## Claim C8 -/

/-- C8: the scenario gate returns false when disabled; when enabled it
returns true iff the uniform draw in [0, 1) is strictly below the
intensity, hence intensity 0 never triggers and intensity 1 always
triggers. -/
theorem C8_scenario_gate (intensity r : ℚ) (h0 : 0 ≤ r) (h1 : r < 1) :
    is_attack_request false intensity r = false ∧
      (is_attack_request true intensity r = true ↔ r < intensity) ∧
      is_attack_request true 0 r = false ∧
      is_attack_request true 1 r = true := by
  refine ⟨rfl, ?_, ?_, ?_⟩ <;> simp [is_attack_request]
  · exact h0
  · exact h1

/-- C8 witness: the draw 1/2 against intensity 3/4. -/
theorem C8_scenario_gate_witness :
    (0 : ℚ) ≤ 1 / 2 ∧ (1 / 2 : ℚ) < 1 ∧
      (is_attack_request false (3 / 4) (1 / 2) = false ∧
        (is_attack_request true (3 / 4) (1 / 2) = true ↔
          (1 / 2 : ℚ) < 3 / 4) ∧
        is_attack_request true 0 (1 / 2) = false ∧
        is_attack_request true 1 (1 / 2) = true) :=
  ⟨by norm_num, by norm_num,
    C8_scenario_gate (3 / 4) (1 / 2) (by norm_num) (by norm_num)⟩

end LogGen
